import Mathlib

/-!
Verification of the content-sdk-migration-cli file-discovery and
job-upload pipeline. The TypeScript sources (`src/analyser.ts`,
`src/lib/classifyFileType.ts`, `src/lib/buildServiceUrl.ts`,
`src/lib/getConfig.ts`) are shallowly embedded: JavaScript strings become
Lean `String` (operated on through their character lists), `async`
control flow is flattened to explicit result values and event traces, and
`Math.random` jitter becomes an explicit function parameter.
-/

namespace ContentSdk

/-- Embedding of JavaScript `String.prototype.includes` restricted to the
needle being a contiguous substring: `listHasInfix pat l` is true when
`pat` occurs contiguously inside `l`. -/
def listHasInfix (pat : List Char) : List Char → Bool
  | [] => pat.isEmpty
  | c :: tl => pat.isPrefixOf (c :: tl) || listHasInfix pat tl

/-- JS `haystack.includes(needle)` over Lean strings. -/
def strContains (s pat : String) : Bool :=
  listHasInfix pat.data s.data

/-- JS `s.endsWith(suffix)` over Lean strings. -/
def strEndsWith (s suffix : String) : Bool :=
  suffix.data.isSuffixOf s.data

/-- JS `s.startsWith(pre)` over Lean strings. -/
def strStartsWith (s pre : String) : Bool :=
  pre.data.isPrefixOf s.data

/-- One character of `filePath.replace(/\\/g, '/').toLowerCase()`:
backslashes become slashes first, then the character is lower-cased
(lower-casing does not affect `/`). -/
def normalizeChar (c : Char) : Char :=
  (if c = '\\' then '/' else c).toLower

/-- `filePath.replace(/\\/g, '/').toLowerCase()` as a character list. -/
def normalizePath (filePath : String) : List Char :=
  filePath.data.map normalizeChar

/-- Embedding of `classifyFileType` from `src/lib/classifyFileType.ts`:
the ordered decision list mapping a relative path to its role, evaluated
first-match-wins on the separator-normalized, lower-cased path. -/
def classifyFileType (filePath : String) : String :=
  let normalizedPath := normalizePath filePath
  if ["boostrap.tsx", "layout.tsx", "notfound.tsx", "scripts.tsx"].any
      (fun suffix => suffix.data.isSuffixOf normalizedPath) then
    "Page"
  else if ["component-props/index.ts", "next.config.js"].any
      (fun suffix => suffix.data.isSuffixOf normalizedPath) then
    "Config"
  else if listHasInfix "/components/".data normalizedPath &&
      ".tsx".data.isSuffixOf normalizedPath then
    "Component"
  else if listHasInfix "/middleware/plugins".data normalizedPath then
    "Middleware"
  else if listHasInfix "/pages/api/".data normalizedPath then
    "API Route"
  else if listHasInfix "/pages/".data normalizedPath &&
      ".tsx".data.isSuffixOf normalizedPath then
    "Page"
  else if listHasInfix "/page-props-factory/plugins/".data normalizedPath then
    "Plugin"
  else if "/package.json".data.isSuffixOf normalizedPath then
    "Package"
  else
    "Module"

/-- The central list of file types forwarded to analysis
(`FILE_TYPES_TO_ANALYZE` in `src/analyser.ts`). -/
def FILE_TYPES_TO_ANALYZE : List String :=
  ["Plugin", "Middleware", "Package", "Component", "Page", "API Route", "Config"]

/-- The built-in default ignore patterns added in `analyzeCodebase`
(`src/analyser.ts` lines 204-233), in source order, duplicates kept. -/
def defaultIgnores : List String :=
  ["node_modules", ".next", ".turbo", ".swc", ".sonarlint", "dist", "build",
   "local-containers", "spa-starters", "byoc", "feaas", "temp", "api",
   "next-env.d.ts", "generate-component-builder", "scaffold-component",
   "sitemap-fetcher", "site-resolver", "extract-path", "__tests__",
   "__mocks__", "__fixtures__", "__stories__", "__test-utils__",
   "__test-helpers__", "__test-utils__", "__data__", "*.stories.tsx"]

/-- Splits a POSIX path into its `/`-separated segments. -/
def splitOnSlash : List Char → List (List Char)
  | [] => [[]]
  | c :: tl =>
    let rest := splitOnSlash tl
    if c = '/' then [] :: rest
    else
      match rest with
      | h :: t => (c :: h) :: t
      | [] => [[c]]

/-- Whether one ignore pattern matches one path segment. Patterns of the
form `*suffix` (the default list's `*.stories.tsx`) match any segment
ending in the suffix; all other patterns match by equality. -/
def segMatches (pat seg : List Char) : Bool :=
  match pat with
  | '*' :: rest => rest.isSuffixOf seg
  | _ => pat == seg

/-- Modelled from the spec: the matching of the third-party `ignore`
npm library (`ig.ignores`), which is not part of this repository's
sources. Per the spec, matching uses "standard hierarchical glob-ignore
semantics (a pattern matching a directory ignores everything beneath
it)" on POSIX-normalized relative paths: a slash-free pattern matching
any path segment ignores the file. Restricted to the pattern shapes the
sources use (bare names and a single leading-`*` glob); negation
patterns do not occur in the sources. -/
def ignoresPath (patterns : List String) (relPath : String) : Bool :=
  let segs := splitOnSlash relPath.data
  patterns.any fun p => segs.any fun seg => segMatches p.data seg

/-- `path.isAbsolute(p) ? p : path.join(projectPath, p)` from
`analyzeCodebase` (POSIX form of absoluteness and joining). -/
def absolutizeOverride (projectPath override : String) : String :=
  if strStartsWith override "/" then override
  else projectPath ++ "/" ++ override

/-- Result of the ignore-file loading phase of `analyzeCodebase`
(`src/analyser.ts` lines 174-233): the final ordered pattern list, which
candidate file (if any) was loaded, and whether the missing-override
warning was printed. -/
structure IgnoreLoad where
  patterns : List String
  loadedFrom : Option String
  warned : Bool
  deriving Repr, DecidableEq

/-- Embedding of the ignore-rule construction in `analyzeCodebase`:
build the candidate list (absolutized override first if supplied, then
the project-root `.gitignore`), load the first candidate that exists,
warn exactly when an override was supplied but no candidate loaded, and
always append the built-in defaults afterwards. `fsExists` models
`fs.existsSync`; `fileLines` models reading the file and the `ignore`
library's splitting of its contents into patterns. -/
def loadIgnoreRules (fsExists : String → Bool) (fileLines : String → List String)
    (projectPath : String) (overridePath : Option String) : IgnoreLoad :=
  let candidates :=
    (match overridePath with
     | some o => [absolutizeOverride projectPath o]
     | none => []) ++ [projectPath ++ "/.gitignore"]
  let loaded := candidates.find? fsExists
  let filePatterns :=
    match loaded with
    | some p => fileLines p
    | none => []
  { patterns := filePatterns ++ defaultIgnores
    loadedFrom := loaded
    warned := overridePath.isSome && loaded.isNone }

/-- Steps 4-5 of `analyzeCodebase`: from the glob enumeration (given
here as project-relative POSIX paths, as the code reconstructs via
`path.relative`), drop ignored files, then keep only files whose
classified type is in `FILE_TYPES_TO_ANALYZE`. -/
def discoveredFiles (fsExists : String → Bool) (fileLines : String → List String)
    (projectPath : String) (allFiles : List String)
    (overridePath : Option String) : List String :=
  let rules := loadIgnoreRules fsExists fileLines projectPath overridePath
  let relevantFiles := allFiles.filter fun f => !(ignoresPath rules.patterns f)
  relevantFiles.filter fun f => FILE_TYPES_TO_ANALYZE.contains (classifyFileType f)

/-- An empty mock filesystem for the concrete discovery scenario: no
ignore file exists anywhere. -/
def fs0 : String → Bool := fun _ => false

/-- File contents for the mock filesystem (never consulted under `fs0`). -/
def lines0 : String → List String := fun _ => []

/-- The four files of the C1 scenario, in glob enumeration order
(`ts`/`tsx` matches first, then `package.json` matches). -/
def demoFiles : List String :=
  ["src/components/Foo.tsx", "src/middleware/plugins/bar.ts",
   "package.json", "node_modules/x/package.json"]

/-- The value of the `retry-after` response header after the parsing in
`getRetryAfterMs`: absent (or empty, hence falsy), a numeric string
parsed by `Number(header)` (seconds), an HTTP date parsed by
`Date.parse` (epoch milliseconds), or a string neither parses. -/
inductive RetryAfterValue where
  | absent
  | seconds (n : Nat)
  | httpDate (epochMs : Int)
  | unparsable
  deriving Repr, DecidableEq

/-- The fields of an axios error that `src/analyser.ts` consults:
`error.code`, `error.message`, whether `error.response` is present and,
when it is, its `status`, `statusText`, optional serialized `data`, and
`retry-after` header; plus whether `error.request` is present. -/
structure AxiosErrorInfo where
  code : Option String
  message : String
  hasResponse : Bool
  status : Nat
  statusText : String
  data : Option String
  hasRequest : Bool
  retryAfter : RetryAfterValue
  deriving Repr, DecidableEq

/-- A thrown JavaScript value as the analyser observes it: an axios
error, or any other `Error`/value carrying only a message string
(`String(error)` for non-`Error` throwables collapses to the same
shape). -/
inductive ErrVal where
  | axios (info : AxiosErrorInfo)
  | other (message : String)
  deriving Repr, DecidableEq

/-- `error.response?.status`: defined only for an axios error that has a
response. -/
def statusOf : ErrVal → Option Nat
  | .axios info => if info.hasResponse then some info.status else none
  | .other _ => none

/-- Embedding of `isTimeoutError` (`src/analyser.ts` lines 54-60): an
axios error whose `code` is `ECONNABORTED` or whose message contains
`timeout`. -/
def isTimeoutError : ErrVal → Bool
  | .axios info =>
    info.code == some "ECONNABORTED" || strContains info.message "timeout"
  | .other _ => false

/-- Embedding of `getRetryAfterMs` (`src/analyser.ts` lines 62-76):
`undefined` for non-axios errors or an absent/unparsable header; a
numeric header is seconds, multiplied by 1000; a date header yields the
positive part of its distance from `Date.now()` (the `now` parameter). -/
def getRetryAfterMs (now : Int) : ErrVal → Option Nat
  | .other _ => none
  | .axios info =>
    match info.retryAfter with
    | .absent => none
    | .seconds n => some (n * 1000)
    | .httpDate t => some (t - now).toNat
    | .unparsable => none

/-- The retryable-status test of `withRetry` (`src/analyser.ts` lines
99-102): status 408, 429, or any status of at least 500. -/
def retryableStatus (e : ErrVal) : Bool :=
  statusOf e == some 408 || statusOf e == some 429 ||
    (match statusOf e with
     | some s => 500 ≤ s
     | none => false)

/-- The full retryable test of `withRetry` (`src/analyser.ts` line
103): a timeout condition or a retryable status. -/
def retryable (e : ErrVal) : Bool :=
  isTimeoutError e || retryableStatus e

/-- The observable outcome of one `withRetry` run: the returned value or
propagated error, how many times the wrapped operation was invoked, and
the backoff delays slept between attempts, in order. -/
structure RetryRun (T : Type) where
  result : Except ErrVal T
  calls : Nat
  delays : List Nat
  deriving Repr

/-- The attempt loop of `withRetry` (`src/analyser.ts` lines 92-131).
`op n` is the result of the `n`-th invocation of the wrapped operation
and `jitter n` the value of `Math.floor(Math.random() * 250)` drawn on
attempt `n` (always below 250). The fuel argument counts the loop
iterations still permitted (`retries - attempt + 1` at entry); when it
runs out without an attempt having returned or thrown — which the loop
structure only allows when `retries < 1` — the trailing
`throw new Error('unreachable')` fires. On a failure that is on the last
attempt (`attempt == retries`) or not retryable, the error is rethrown
at once; otherwise the delay is the `retry-after` hint if present, else
`min(maxDelayMs, minDelayMs * 2^(attempt-1))` plus the jitter. -/
def withRetryGo {T : Type} (op : Nat → Except ErrVal T) (now : Int)
    (retries minDelayMs maxDelayMs : Nat) (jitter : Nat → Nat)
    (attempt : Nat) : Nat → RetryRun T
  | 0 => ⟨.error (.other "unreachable"), 0, []⟩
  | fuel + 1 =>
    match op attempt with
    | .ok v => ⟨.ok v, 1, []⟩
    | .error e =>
      if attempt == retries || !(retryable e) then ⟨.error e, 1, []⟩
      else
        let delayMs := (getRetryAfterMs now e).getD
          (min maxDelayMs (minDelayMs * 2 ^ (attempt - 1)) + jitter attempt)
        let rest := withRetryGo op now retries minDelayMs maxDelayMs jitter
          (attempt + 1) fuel
        ⟨rest.result, rest.calls + 1, delayMs :: rest.delays⟩

/-- Embedding of `withRetry` (`src/analyser.ts` lines 78-132): the loop
starts at attempt 1 and permits `retries` iterations. -/
def withRetry {T : Type} (op : Nat → Except ErrVal T) (now : Int)
    (retries minDelayMs maxDelayMs : Nat) (jitter : Nat → Nat) : RetryRun T :=
  withRetryGo op now retries minDelayMs maxDelayMs jitter 1 retries

/-- The error message recorded for a failed file (`src/analyser.ts`
lines 391-408): axios errors with a response report the status line
(plus serialized body when present), axios errors with only a request
report a network error, other axios errors report the message; plain
errors contribute their message. -/
def errorMessageOf : ErrVal → String
  | .axios info =>
    if info.hasResponse then
      let base := "HTTP " ++ toString info.status ++ ": " ++ info.statusText
      match info.data with
      | some d => base ++ " - " ++ d
      | none => base
    else if info.hasRequest then
      "Network error: No response received from server"
    else
      "Request error: " ++ info.message
  | .other m => m

/-- The per-run upload bookkeeping of `readAndAnalyzeFiles`
(`src/analyser.ts` lines 328-331): the completed counter and the
timed-out and failed file lists. -/
structure JobTally where
  completed : Nat
  timedOut : List String
  failed : List (String × String)
  deriving Repr, DecidableEq

/-- How one settled upload task updates the tally (`src/analyser.ts`
lines 354-412): success increments `completedCount`; a caught error goes
to `timedOutFiles` when it is a timeout, otherwise to `failedFiles` with
its rendered message. Exactly one bucket is touched per file. -/
def recordOutcome (t : JobTally) (relPath : String)
    (res : Except ErrVal Unit) : JobTally :=
  match res with
  | .ok _ => { t with completed := t.completed + 1 }
  | .error e =>
    if isTimeoutError e then { t with timedOut := t.timedOut ++ [relPath] }
    else { t with failed := t.failed ++ [(relPath, errorMessageOf e)] }

/-- The tally after every upload task has settled. `resultOf f` is the
settled result of file `f`'s queued `withRetry`-wrapped upload. The
single-threaded event loop interleaves the counter updates, but each
file's continuation performs exactly one `recordOutcome`, so the final
tally is a fold over the files. -/
def uploadTally (files : List String)
    (resultOf : String → Except ErrVal Unit) : JobTally :=
  files.foldl (fun t f => recordOutcome t f (resultOf f)) ⟨0, [], []⟩

/-- The externally observable phases of `readAndAnalyzeFiles`: the
initiate call, the per-file analyse-file task submissions, the
queue-idle barrier (`await Promise.all` followed by
`await queue.onIdle()`), and the finalize call. -/
inductive RunEvent where
  | initiateCall
  | analyseFileCall (file : String)
  | queueIdle
  | finalizeCall
  deriving Repr, DecidableEq

/-- The event trace and outcome of `readAndAnalyzeFiles`
(`src/analyser.ts` lines 297-519), with file reads assumed to succeed
(the claims under study concern upload failures, which the per-task
`catch` absorbs). A failing initiate call throws out of the function
before any upload or finalize; otherwise every file's task is submitted
(`resultOf f` being file `f`'s settled upload result), the queue drains
to idle, and the finalize call is issued unconditionally — a finalize
failure propagates only after the call itself was made, while a success
yields the three report URLs alongside the settled tally. -/
def readAndAnalyzeRun (files : List String)
    (initResult : Except ErrVal String)
    (resultOf : String → Except ErrVal Unit)
    (finalizeResult : Except ErrVal (String × String × String)) :
    List RunEvent × Except ErrVal (JobTally × (String × String × String)) :=
  match initResult with
  | .error e => ([.initiateCall], .error e)
  | .ok _ =>
    let tally := uploadTally files resultOf
    let events := RunEvent.initiateCall ::
      (files.map RunEvent.analyseFileCall ++
        [RunEvent.queueIdle, RunEvent.finalizeCall])
    match finalizeResult with
    | .error e => (events, .error e)
    | .ok urls => (events, .ok (tally, urls))

/-- Throttle overrides as passed through `getConfig`
(`src/interfaces/configInterfaces.ts`). -/
structure ThrottleSettings where
  maxConcurrent : Nat
  intervalCap : Nat
  intervalMs : Nat
  deriving Repr, DecidableEq

/-- Embedding of `ServiceConfig` (`src/interfaces/configInterfaces.ts`). -/
structure ServiceConfig where
  SERVICE_HOST : String
  SERVICE_KEY : String
  DEBUG : Bool
  VERBOSE : Bool
  WHAT_IF : Bool
  THROTTLE : Option ThrottleSettings
  deriving Repr, DecidableEq

/-- Embedding of `getConfig` (`src/lib/getConfig.ts`): the debug host is
the localhost service, the production host appends the service version
to the Azure API-management base. -/
def getConfig (apiKey : String) (debug verbose whatIf : Bool)
    (serviceVersion : String) (throttle : Option ThrottleSettings) :
    ServiceConfig :=
  { SERVICE_HOST :=
      if debug then "http://localhost:7071"
      else "https://api-think-fresh-digital.azure-api.net/content-sdk/" ++
        serviceVersion
    SERVICE_KEY := apiKey
    DEBUG := debug
    VERBOSE := verbose
    WHAT_IF := whatIf
    THROTTLE := throttle }

/-- Embedding of `buildServiceUrl` (`src/lib/buildServiceUrl.ts`): strip
a trailing slash from the host and a leading slash from the route; debug
mode inserts the `/api/` segment and returns the URL as-is, production
mode uses a bare `/` and appends the key as the `code` query parameter. -/
def buildServiceUrl (config : ServiceConfig) (route : String) : String :=
  let base :=
    if strEndsWith config.SERVICE_HOST "/" then
      String.mk config.SERVICE_HOST.data.dropLast
    else config.SERVICE_HOST
  let cleanRoute :=
    if strStartsWith route "/" then String.mk (route.data.drop 1) else route
  let routed := if config.DEBUG then "/api/" ++ cleanRoute else "/" ++ cleanRoute
  let url := base ++ routed
  if config.DEBUG then url else url ++ "?code=" ++ config.SERVICE_KEY

/-- One HTTP request as `readAndAnalyzeFiles` issues it: the constructed
URL and the value sent in the `Ocp-Apim-Subscription-Key` header. -/
structure HttpRequest where
  url : String
  subscriptionKeyHeader : String
  deriving Repr, DecidableEq

/-- The requests a full run issues (`src/analyser.ts` lines 308-315,
355-367, 453-463): one initiate, one analyse-file per file, one
finalize; every one carries the subscription key header
`Ocp-Apim-Subscription-Key: config.SERVICE_KEY`. -/
def runRequests (config : ServiceConfig) (jobId : String)
    (files : List String) : List HttpRequest :=
  ⟨buildServiceUrl config "jobs-initiate", config.SERVICE_KEY⟩ ::
    (files.map fun _ =>
      ⟨buildServiceUrl config ("jobs/" ++ jobId ++ "/analyse-file"),
        config.SERVICE_KEY⟩) ++
    [⟨buildServiceUrl config ("jobs/" ++ jobId ++ "/finalise"),
      config.SERVICE_KEY⟩]

/-- The discovery-and-dispatch skeleton of `analyzeCodebase`
(`src/analyser.ts` lines 134-295): fail when the project path does not
exist; otherwise run discovery; in what-if mode return the filtered list
with no network activity, else return it together with the trace of the
upload phase (supplied by `readAndAnalyzeEvents` at the call site and
passed in here as `netEvents`). -/
def analyzeCodebaseRun (fsExists : String → Bool)
    (fileLines : String → List String) (projectPath : String)
    (allFiles : List String) (whatIf : Bool) (overridePath : Option String)
    (netEvents : List RunEvent) :
    Except String (List String × List RunEvent) :=
  if !(fsExists projectPath) then
    .error ("Project path does not exist: " ++ projectPath)
  else
    let filteredFiles :=
      discoveredFiles fsExists fileLines projectPath allFiles overridePath
    if whatIf then .ok (filteredFiles, [])
    else .ok (filteredFiles, netEvents)

/-- A mock filesystem containing only the project root directory. -/
def fsProj : String → Bool := fun p => p == "/proj"

/-- A mock filesystem where only the project-root `.gitignore` exists. -/
def fsGit : String → Bool := fun p => p == "/proj/.gitignore"

/-- Mock ignore-file contents: the project `.gitignore` holds one
pattern. -/
def linesGit : String → List String :=
  fun p => if p == "/proj/.gitignore" then ["secret"] else []

/-- A fatal (non-retryable) HTTP 404 axios error. -/
def err404 : ErrVal :=
  .axios { code := none, message := "Request failed with status code 404",
           hasResponse := true, status := 404, statusText := "Not Found",
           data := none, hasRequest := true, retryAfter := .absent }

/-- A retryable HTTP 503 axios error without a retry-after hint. -/
def err503 : ErrVal :=
  .axios { code := none, message := "Request failed with status code 503",
           hasResponse := true, status := 503,
           statusText := "Service Unavailable", data := none,
           hasRequest := true, retryAfter := .absent }

/-- A retryable HTTP 429 axios error carrying `retry-after: 2`. -/
def err429 : ErrVal :=
  .axios { code := none, message := "Request failed with status code 429",
           hasResponse := true, status := 429,
           statusText := "Too Many Requests", data := none,
           hasRequest := true, retryAfter := .seconds 2 }

/- ### Helper lemmas -/

theorem strData_append (a b : String) : (a ++ b).data = a.data ++ b.data := rfl

theorem strExt {a b : String} (h : a.data = b.data) : a = b := by
  cases a; cases b; exact congrArg String.mk h

theorem strAppend_assoc (a b c : String) : a ++ b ++ c = a ++ (b ++ c) :=
  strExt (by simp [strData_append])

/-- A pattern cannot occur inside a list missing its first character. -/
theorem listHasInfix_false_of_head (c0 : Char) (rest l : List Char)
    (h : c0 ∉ l) : listHasInfix (c0 :: rest) l = false := by
  induction l with
  | nil => rfl
  | cons c tl ih =>
    have hc : ¬(c0 = c) := fun hh => h (hh ▸ List.mem_cons_self c tl)
    have htl : c0 ∉ tl := fun hm => h (List.mem_cons_of_mem c hm)
    simp [listHasInfix, List.isPrefixOf, hc, ih htl]

/-- The loop body never invokes the operation more often than its fuel
permits. -/
theorem withRetryGo_calls_le {T : Type} (op : Nat → Except ErrVal T)
    (now : Int) (retries minDelayMs maxDelayMs : Nat) (jitter : Nat → Nat) :
    ∀ fuel attempt,
      (withRetryGo op now retries minDelayMs maxDelayMs jitter attempt fuel).calls ≤
        fuel := by
  intro fuel
  induction fuel with
  | zero => intro attempt; simp [withRetryGo]
  | succ n ih =>
    intro attempt
    unfold withRetryGo
    cases hop : op attempt with
    | ok v => simp
    | error e =>
      by_cases hc : (attempt == retries || !(retryable e)) = true
      · simp [hc]
      · simp only [Bool.not_eq_true] at hc
        simp only [hc, if_false]
        exact Nat.succ_le_succ (ih (attempt + 1))

/-- A non-retryable failure ends the loop at once: one call, no delay,
the error propagated. -/
theorem withRetryGo_fatal {T : Type} (op : Nat → Except ErrVal T)
    (now : Int) (retries minDelayMs maxDelayMs : Nat) (jitter : Nat → Nat)
    (attempt fuel : Nat) (e : ErrVal)
    (hop : op attempt = .error e) (hfat : retryable e = false) :
    withRetryGo op now retries minDelayMs maxDelayMs jitter attempt (fuel + 1) =
      ⟨.error e, 1, []⟩ := by
  unfold withRetryGo
  rw [hop]
  simp [hfat]

/-- Settling one file's outcome grows the three tallies by exactly one in
total. -/
theorem recordOutcome_sum (t : JobTally) (f : String)
    (res : Except ErrVal Unit) :
    (recordOutcome t f res).completed +
      (recordOutcome t f res).timedOut.length +
      (recordOutcome t f res).failed.length =
    t.completed + t.timedOut.length + t.failed.length + 1 := by
  unfold recordOutcome
  cases res with
  | ok v => simp; omega
  | error e =>
    by_cases h : isTimeoutError e = true <;> simp [h] <;> omega

/-- The fold underlying `uploadTally` adds exactly one tally unit per
file. -/
theorem uploadTally_go (resultOf : String → Except ErrVal Unit) :
    ∀ (files : List String) (t : JobTally),
      (files.foldl (fun t f => recordOutcome t f (resultOf f)) t).completed +
        (files.foldl (fun t f => recordOutcome t f (resultOf f)) t).timedOut.length +
        (files.foldl (fun t f => recordOutcome t f (resultOf f)) t).failed.length =
      t.completed + t.timedOut.length + t.failed.length + files.length := by
  intro files
  induction files with
  | nil => intro t; simp
  | cons f fs ih =>
    intro t
    simp only [List.foldl_cons, List.length_cons]
    rw [ih, recordOutcome_sum]
    omega

/- ### Claim theorems -/

/-- C1 (counterexample): in the four-file scenario the claim asserts that
discovery yields the root `package.json` classified as `Package`; in fact
`classifyFileType` requires the path to end in `/package.json` with a
leading slash, so the root `package.json` (relative path without a slash)
is classified `Module` and discovery does not yield it. -/
theorem claim_C1_counterexample :
    "package.json" ∉ discoveredFiles fs0 lines0 "/proj" demoFiles none ∧
    classifyFileType "package.json" ≠ "Package" := by decide

/-- C1 (amended): for the project with exactly the files
`src/components/Foo.tsx`, `src/middleware/plugins/bar.ts`,
`node_modules/x/package.json`, and the root `package.json`, discovery
yields `Foo.tsx` classified Component and `bar.ts` classified
Middleware; the nested `node_modules` package.json is excluded by the
default ignore rules, and the root `package.json` is classified `Module`
(not `Package`) and is therefore also excluded. -/
theorem claim_C1 :
    discoveredFiles fs0 lines0 "/proj" demoFiles none =
      ["src/components/Foo.tsx", "src/middleware/plugins/bar.ts"] ∧
    classifyFileType "src/components/Foo.tsx" = "Component" ∧
    classifyFileType "src/middleware/plugins/bar.ts" = "Middleware" ∧
    classifyFileType "package.json" = "Module" ∧
    ignoresPath (loadIgnoreRules fs0 lines0 "/proj" none).patterns
      "node_modules/x/package.json" = true := by decide

/-- C2 (counterexample): with an override path that does not exist but a
project-root `.gitignore` that does, the code loads the project-root
file (its pattern `secret` is in force) and prints no warning — contrary
to the claim that only built-in defaults would apply and a warning would
be produced. -/
theorem claim_C2_counterexample :
    (loadIgnoreRules fsGit linesGit "/proj" (some "custom.ignore")).loadedFrom =
      some "/proj/.gitignore" ∧
    (loadIgnoreRules fsGit linesGit "/proj" (some "custom.ignore")).warned = false ∧
    "secret" ∈ (loadIgnoreRules fsGit linesGit "/proj" (some "custom.ignore")).patterns := by
  decide

/-- C2 (amended): when the override ignore path exists its rules apply in
place of the project-root ignore file (plus the built-in defaults); when
the override does not exist, the project-root ignore file is used instead
when present, without a warning; only when neither exists do the built-in
defaults alone apply, and the warning is produced exactly in that case. -/
theorem claim_C2 (fsExists : String → Bool) (fileLines : String → List String)
    (projectPath ov : String) :
    (fsExists (absolutizeOverride projectPath ov) = true →
      loadIgnoreRules fsExists fileLines projectPath (some ov) =
        ⟨fileLines (absolutizeOverride projectPath ov) ++ defaultIgnores,
         some (absolutizeOverride projectPath ov), false⟩) ∧
    (fsExists (absolutizeOverride projectPath ov) = false →
      fsExists (projectPath ++ "/.gitignore") = true →
      loadIgnoreRules fsExists fileLines projectPath (some ov) =
        ⟨fileLines (projectPath ++ "/.gitignore") ++ defaultIgnores,
         some (projectPath ++ "/.gitignore"), false⟩) ∧
    (fsExists (absolutizeOverride projectPath ov) = false →
      fsExists (projectPath ++ "/.gitignore") = false →
      loadIgnoreRules fsExists fileLines projectPath (some ov) =
        ⟨defaultIgnores, none, true⟩) := by
  refine ⟨fun h1 => ?_, fun h1 h2 => ?_, fun h1 h2 => ?_⟩
  · simp [loadIgnoreRules, List.find?, h1]
  · simp [loadIgnoreRules, List.find?, h1, h2]
  · simp [loadIgnoreRules, List.find?, h1, h2]

/-- C2 (witness): with no ignore file existing anywhere and an override
supplied, only the defaults load and the warning fires. -/
theorem claim_C2_witness :
    loadIgnoreRules fs0 lines0 "/proj" (some "custom.ignore") =
      ⟨defaultIgnores, none, true⟩ :=
  (claim_C2 fs0 lines0 "/proj" "custom.ignore").2.2 rfl rfl

/-- C3: for every operation and every retry configuration, `withRetry`
invokes the wrapped operation at most `retries` times; and a failure
classified non-retryable ends the run at that very attempt: the error is
propagated with one call made at that point and no backoff delay slept. -/
theorem claim_C3 :
    (∀ (T : Type) (op : Nat → Except ErrVal T) (now : Int)
      (retries minDelayMs maxDelayMs : Nat) (jitter : Nat → Nat),
      (withRetry op now retries minDelayMs maxDelayMs jitter).calls ≤
        retries) ∧
    (∀ (T : Type) (op : Nat → Except ErrVal T) (now : Int)
      (retries minDelayMs maxDelayMs : Nat) (jitter : Nat → Nat)
      (attempt fuel : Nat) (e : ErrVal),
      op attempt = .error e → retryable e = false →
      withRetryGo op now retries minDelayMs maxDelayMs jitter attempt
        (fuel + 1) = ⟨.error e, 1, []⟩) :=
  ⟨fun _ op now retries minDelayMs maxDelayMs jitter =>
    withRetryGo_calls_le op now retries minDelayMs maxDelayMs jitter
      retries 1,
   fun _ op now retries minDelayMs maxDelayMs jitter attempt fuel e hop
      hfat =>
    withRetryGo_fatal op now retries minDelayMs maxDelayMs jitter attempt
      fuel e hop hfat⟩

/-- C3 (witness): an operation that always fails with the retryable HTTP
503 is still called at most `retries` times, and an operation that fails
with HTTP 404 is called once and its error propagated. -/
theorem claim_C3_witness :
    (withRetry (fun _ => (Except.error err503 : Except ErrVal Unit)) 0 3
      1000 8000 (fun _ => 0)).calls ≤ 3 ∧
    withRetryGo (fun _ => (Except.error err404 : Except ErrVal Unit)) 0 3
      1000 8000 (fun _ => 0) 1 3 = ⟨.error err404, 1, []⟩ :=
  ⟨claim_C3.1 Unit (fun _ => Except.error err503) 0 3 1000 8000
     (fun _ => 0),
   claim_C3.2 Unit (fun _ => Except.error err404) 0 3 1000 8000
     (fun _ => 0) 1 2 err404 rfl (by decide)⟩

/-- C4: a failure is classified retryable exactly when it is a timeout
condition, an HTTP 408 or 429, or any HTTP status of at least 500; every
other failure is fatal and is propagated from its attempt with no further
attempt and no delay. -/
theorem claim_C4 :
    (∀ e : ErrVal, retryable e = true ↔
      (isTimeoutError e = true ∨ statusOf e = some 408 ∨
        statusOf e = some 429 ∨ ∃ s, statusOf e = some s ∧ 500 ≤ s)) ∧
    (∀ (T : Type) (op : Nat → Except ErrVal T) (now : Int)
      (retries minDelayMs maxDelayMs : Nat) (jitter : Nat → Nat)
      (attempt fuel : Nat) (e : ErrVal),
      op attempt = .error e → retryable e = false →
      withRetryGo op now retries minDelayMs maxDelayMs jitter attempt
        (fuel + 1) = ⟨.error e, 1, []⟩) := by
  constructor
  · intro e
    unfold retryable retryableStatus
    cases h : statusOf e with
    | none => simp [h]
    | some s =>
      simp only [h, Bool.or_eq_true, beq_iff_eq, Option.some.injEq,
        decide_eq_true_eq, exists_eq_left']
      tauto
  · intro T op now retries minDelayMs maxDelayMs jitter attempt fuel e hop hfat
    exact withRetryGo_fatal op now retries minDelayMs maxDelayMs jitter
      attempt fuel e hop hfat

/-- C4 (witness): HTTP 503 is retryable; HTTP 404 is fatal and
propagated after a single call. -/
theorem claim_C4_witness :
    retryable err503 = true ∧
    withRetryGo (fun _ => (Except.error err404 : Except ErrVal Unit)) 0 4
      1000 10000 (fun _ => 0) 1 4 = ⟨.error err404, 1, []⟩ :=
  ⟨(claim_C4.1 err503).mpr
      (Or.inr (Or.inr (Or.inr ⟨503, by decide, by decide⟩))),
   claim_C4.2 Unit (fun _ => (Except.error err404 : Except ErrVal Unit)) 0 4
     1000 10000 (fun _ => 0) 1 3 err404 rfl (by decide)⟩

/-- C5: on a retryable failure at attempt `n` that is not the last
allowed attempt, the slept delay is the server's retry-after value
verbatim when one is present (no jitter added); otherwise it is
`min(maxDelayMs, minDelayMs * 2^(n-1))` plus a jitter below 250. -/
theorem claim_C5 {T : Type} (op : Nat → Except ErrVal T) (now : Int)
    (retries minDelayMs maxDelayMs : Nat) (jitter : Nat → Nat)
    (n fuel : Nat) (e : ErrVal)
    (hop : op n = .error e) (hretry : retryable e = true)
    (hlast : (n == retries) = false) (hj : jitter n < 250) :
    (∀ d, getRetryAfterMs now e = some d →
      (withRetryGo op now retries minDelayMs maxDelayMs jitter n
        (fuel + 1)).delays.head? = some d) ∧
    (getRetryAfterMs now e = none →
      ∃ j, j < 250 ∧
        (withRetryGo op now retries minDelayMs maxDelayMs jitter n
          (fuel + 1)).delays.head? =
          some (min maxDelayMs (minDelayMs * 2 ^ (n - 1)) + j)) := by
  have hdel : (withRetryGo op now retries minDelayMs maxDelayMs jitter n
      (fuel + 1)).delays =
      (getRetryAfterMs now e).getD
          (min maxDelayMs (minDelayMs * 2 ^ (n - 1)) + jitter n) ::
        (withRetryGo op now retries minDelayMs maxDelayMs jitter (n + 1)
          fuel).delays := by
    simp only [withRetryGo, hop]
    simp [hlast, hretry]
  constructor
  · intro d hd
    rw [hdel]
    simp [hd]
  · intro hd
    refine ⟨jitter n, hj, ?_⟩
    rw [hdel]
    simp [hd]

/-- C5 (witness): a 429 with `retry-after: 2` yields a delay of exactly
2000 ms. -/
theorem claim_C5_witness :
    (withRetryGo (fun _ => (Except.error err429 : Except ErrVal Unit)) 0 4
      1000 10000 (fun _ => 7) 1 4).delays.head? = some 2000 :=
  (claim_C5 (fun _ => (Except.error err429 : Except ErrVal Unit)) 0 4 1000
    10000 (fun _ => 7) 1 3 err429 rfl (by decide) (by decide) (by decide)).1
    2000 (by decide)

/-- C6: once all upload tasks have settled, the completed count plus the
timed-out and failed lists' lengths equals the total number of files,
for every mix of per-file outcomes. -/
theorem claim_C6 (files : List String)
    (resultOf : String → Except ErrVal Unit) :
    (uploadTally files resultOf).completed +
      (uploadTally files resultOf).timedOut.length +
      (uploadTally files resultOf).failed.length = files.length := by
  unfold uploadTally
  rw [uploadTally_go resultOf files ⟨0, [], []⟩]
  simp

/-- C7: in every run whose initiate call succeeds, the finalize call
appears exactly once in the trace, the trace ends with the queue-idle
barrier immediately followed by the finalize call (so finalize happens
only after the dispatcher is idle), and the trace does not depend on the
per-file upload results. -/
theorem claim_C7 (files : List String) (jid : String)
    (resultOf : String → Except ErrVal Unit)
    (finalizeResult : Except ErrVal (String × String × String))
    (initResult : Except ErrVal String) (hinit : initResult = .ok jid) :
    (readAndAnalyzeRun files initResult resultOf finalizeResult).1.count
        RunEvent.finalizeCall = 1 ∧
    (∃ pre, (readAndAnalyzeRun files initResult resultOf finalizeResult).1 =
        pre ++ [RunEvent.queueIdle, RunEvent.finalizeCall] ∧
      RunEvent.finalizeCall ∉ pre ∧ RunEvent.queueIdle ∉ pre) ∧
    (∀ resultOf',
      (readAndAnalyzeRun files initResult resultOf' finalizeResult).1 =
        (readAndAnalyzeRun files initResult resultOf finalizeResult).1) := by
  subst hinit
  have hev : ∀ r : String → Except ErrVal Unit,
      (readAndAnalyzeRun files (.ok jid) r finalizeResult).1 =
        RunEvent.initiateCall :: (files.map RunEvent.analyseFileCall ++
          [RunEvent.queueIdle, RunEvent.finalizeCall]) := by
    intro r
    unfold readAndAnalyzeRun
    cases finalizeResult <;> rfl
  refine ⟨?_, ⟨RunEvent.initiateCall :: files.map RunEvent.analyseFileCall,
    ?_, ?_, ?_⟩, fun r' => by rw [hev r', hev resultOf]⟩
  · rw [hev resultOf]
    have hmap : (files.map RunEvent.analyseFileCall).count
        RunEvent.finalizeCall = 0 := by
      rw [List.count_eq_zero]
      intro hm
      rcases List.mem_map.mp hm with ⟨f, _, hf⟩
      exact RunEvent.noConfusion hf
    simp [List.count_cons, List.count_append, hmap]
  · rw [hev resultOf]; simp
  · simp
  · simp

/-- C7 (witness): a one-file run with a successful initiate has exactly
one finalize call in its trace. -/
theorem claim_C7_witness :
    (readAndAnalyzeRun ["a.tsx"] (Except.ok "job-1") (fun _ => Except.ok ())
      (Except.ok ("r", "p", "l"))).1.count RunEvent.finalizeCall = 1 :=
  (claim_C7 ["a.tsx"] "job-1" (fun _ => Except.ok ())
    (Except.ok ("r", "p", "l")) (Except.ok "job-1") rfl).1

/-- C8: with what-if mode enabled and an existing project path,
`analyzeCodebase` returns the discovered-and-filtered file list and an
empty network trace, whatever trace the upload phase would otherwise
have produced. -/
theorem claim_C8 (fsExists : String → Bool)
    (fileLines : String → List String) (projectPath : String)
    (allFiles : List String) (overridePath : Option String)
    (netEvents : List RunEvent) (hexists : fsExists projectPath = true) :
    analyzeCodebaseRun fsExists fileLines projectPath allFiles true
        overridePath netEvents =
      .ok (discoveredFiles fsExists fileLines projectPath allFiles
        overridePath, ([] : List RunEvent)) := by
  unfold analyzeCodebaseRun
  simp [hexists]

/-- C8 (witness): the what-if run on the demo project reports the two
discovered files and performs no network calls. -/
theorem claim_C8_witness :
    analyzeCodebaseRun fsProj lines0 "/proj" demoFiles true none
        [RunEvent.initiateCall] =
      .ok (["src/components/Foo.tsx", "src/middleware/plugins/bar.ts"],
        ([] : List RunEvent)) := by
  rw [claim_C8 fsProj lines0 "/proj" demoFiles none
    [RunEvent.initiateCall] (by decide)]
  have h1 : discoveredFiles fsProj lines0 "/proj" demoFiles none =
      ["src/components/Foo.tsx", "src/middleware/plugins/bar.ts"] := by decide
  rw [h1]

/-- C9: for a route without `?` and without a leading slash, the debug
URL is the localhost host plus an `/api/` segment plus the route and
contains no `?code=` parameter, while the production URL (for a service
version leaving no trailing slash on the host) is the production host
plus a bare `/`, the route, and `?code=` with the subscription key
appended; and every request of a run carries the subscription key in its
`Ocp-Apim-Subscription-Key` header. -/
theorem claim_C9 (apiKey serviceVersion route : String)
    (verbose whatIf : Bool) (throttle : Option ThrottleSettings)
    (hq : '?' ∉ route.data)
    (hs : strStartsWith route "/" = false)
    (hv : strEndsWith
      ("https://api-think-fresh-digital.azure-api.net/content-sdk/" ++
        serviceVersion) "/" = false) :
    buildServiceUrl (getConfig apiKey true verbose whatIf serviceVersion
        throttle) route = "http://localhost:7071/api/" ++ route ∧
    strContains (buildServiceUrl (getConfig apiKey true verbose whatIf
        serviceVersion throttle) route) "?code=" = false ∧
    buildServiceUrl (getConfig apiKey false verbose whatIf serviceVersion
        throttle) route =
      "https://api-think-fresh-digital.azure-api.net/content-sdk/" ++
        serviceVersion ++ "/" ++ route ++ "?code=" ++ apiKey ∧
    (∀ (cfg : ServiceConfig) (jid : String) (fs : List String)
      (r : HttpRequest), r ∈ runRequests cfg jid fs →
      r.subscriptionKeyHeader = cfg.SERVICE_KEY) := by
  have he : strEndsWith "http://localhost:7071" "/" = false := by decide
  have hdbg : buildServiceUrl (getConfig apiKey true verbose whatIf
      serviceVersion throttle) route =
      "http://localhost:7071" ++ ("/api/" ++ route) := by
    unfold buildServiceUrl getConfig
    simp [he, hs]
  refine ⟨?_, ?_, ?_, ?_⟩
  · rw [hdbg, ← strAppend_assoc]
    exact congrArg (· ++ route) (by decide)
  · rw [hdbg]
    unfold strContains
    have hd : ("http://localhost:7071" ++ ("/api/" ++ route)).data =
        "http://localhost:7071/api/".data ++ route.data := by
      rw [strData_append, strData_append, ← List.append_assoc]
      exact congrArg (· ++ route.data) (by decide)
    rw [hd]
    have hpat : "?code=".data = '?' :: "code=".data := by decide
    rw [hpat]
    apply listHasInfix_false_of_head
    intro hm
    rcases List.mem_append.mp hm with hl | hr
    · exact absurd hl (by decide)
    · exact hq hr
  · unfold buildServiceUrl getConfig
    simp [hv, hs]
    rw [← strAppend_assoc]
  · intro cfg jid fs r hr
    unfold runRequests at hr
    rcases List.mem_cons.mp hr with h0 | h1
    · rw [h0]
    · rcases List.mem_append.mp h1 with hm | hl
      · rcases List.mem_map.mp hm with ⟨f, _, hf⟩
        rw [← hf]
      · rcases List.mem_singleton.mp hl with h0
        rw [h0]

/-- C9 (witness): the concrete URLs for route `jobs-initiate` with key
`k` and service version `v1`. -/
theorem claim_C9_witness :
    buildServiceUrl (getConfig "k" true false false "v1" none)
        "jobs-initiate" = "http://localhost:7071/api/" ++ "jobs-initiate" ∧
    strContains (buildServiceUrl (getConfig "k" true false false "v1" none)
        "jobs-initiate") "?code=" = false ∧
    buildServiceUrl (getConfig "k" false false false "v1" none)
        "jobs-initiate" =
      "https://api-think-fresh-digital.azure-api.net/content-sdk/" ++
        "v1" ++ "/" ++ "jobs-initiate" ++ "?code=" ++ "k" ∧
    (∀ (cfg : ServiceConfig) (jid : String) (fs : List String)
      (r : HttpRequest), r ∈ runRequests cfg jid fs →
      r.subscriptionKeyHeader = cfg.SERVICE_KEY) :=
  claim_C9 "k" "v1" "jobs-initiate" false false none (by decide) (by decide)
    (by decide)

/-- C10: calling `withRetry` with `retries = 0` (the embedding of any
retry budget below one) never invokes the wrapped operation and throws
the `unreachable` error instead of returning a result. -/
theorem claim_C10 (T : Type) (op : Nat → Except ErrVal T) (now : Int)
    (minDelayMs maxDelayMs : Nat) (jitter : Nat → Nat) :
    withRetry op now 0 minDelayMs maxDelayMs jitter =
      ⟨.error (.other "unreachable"), 0, []⟩ := rfl

end ContentSdk
